import Mathlib

/-!
Shallow embedding of the Drive3 batch-reorganization core.

The embedded functions mirror, definition by definition:
  * the review state handlers of the top-level `App` component
    (`handleApprove`, `handleReject`, `handleApproveAll`,
    `handleUpdateAnalysis`, `handleSyncToDrive` and the ingestion/merge
    steps of `handleFilesSelected`);
  * the folder path resolver `ensureFolderPath` with its module-level
    `folderCache`, and the helpers `findFolder` / `createFolder` of the
    drive service, run against an explicit fake store;
  * the mutation applier `applyFileUpdate` of the drive service,
    embedded as the request parameters it builds;
  * the classification gateway `analyzeFilesBatch` of the gemini
    service, with the remote call and the JSON parse represented as
    explicit result-or-failure values.

External, fallible network calls are represented by explicit outcome
parameters; all state (the review list, the sync progress pair, the
folder cache and the fake remote store) is passed explicitly.
-/

namespace Drive3

/-- Top-level taxonomy labels (`FileCategory` in `types.ts`). -/
inductive FileCategory
  | work
  | personal
  | finance
  | legal
  | photosVideos
  | learning
  | templates
  | archive
deriving DecidableEq, Repr

/-- Sensitivity tag (`SensitivityLevel` in `types.ts`). -/
inductive SensitivityLevel
  | normal
  | confidential
  | highRisk
deriving DecidableEq, Repr

/-- Review status of a record (the `status` union of `ProcessedFile` in `types.ts`). -/
inductive Status
  | pending
  | approved
  | rejected
  | synced
  | error
deriving DecidableEq, Repr

/-- Classifier output for one file (`AnalysisResult` in `types.ts`). -/
structure AnalysisResult where
  fileId : String
  category : FileCategory
  suggestedPath : String
  suggestedName : String
  shouldArchive : Bool
  sensitivity : SensitivityLevel
  reasoning : String
  confidence : Rat
deriving DecidableEq, Repr

/-- A `Partial<AnalysisResult>` as passed to `handleUpdateAnalysis`: every field optional. -/
structure PartialAnalysis where
  fileId : Option String
  category : Option FileCategory
  suggestedPath : Option String
  suggestedName : Option String
  shouldArchive : Option Bool
  sensitivity : Option SensitivityLevel
  reasoning : Option String
  confidence : Option Rat
deriving DecidableEq, Repr

/-- The object spread `\x7b ...f.analysis, ...updates \x7d` in `handleUpdateAnalysis`:
fields present in the partial update override the existing analysis. -/
def mergeAnalysis (a : AnalysisResult) (u : PartialAnalysis) : AnalysisResult :=
  { fileId := u.fileId.getD a.fileId
    category := u.category.getD a.category
    suggestedPath := u.suggestedPath.getD a.suggestedPath
    suggestedName := u.suggestedName.getD a.suggestedName
    shouldArchive := u.shouldArchive.getD a.shouldArchive
    sensitivity := u.sensitivity.getD a.sensitivity
    reasoning := u.reasoning.getD a.reasoning
    confidence := u.confidence.getD a.confidence }

/-- Immutable file descriptor (`DriveFile` in `types.ts`). -/
structure DriveFile where
  id : String
  name : String
  size : Nat
  type : String
  contentSnippet : Option String
  lastModified : Nat
  thumbnailLink : Option String
  webViewLink : Option String
  iconLink : Option String
  parents : Option (List String)
deriving DecidableEq, Repr

/-- A review record (`ProcessedFile` in `types.ts`): descriptor plus optional analysis and status. -/
structure ProcessedFile extends DriveFile where
  analysis : Option AnalysisResult
  status : Status
deriving DecidableEq, Repr

/-- Ingestion step of `handleFilesSelected` in `App`:
`selectedFiles.map(f => (\x7b ...f, status: 'pending' \x7d))`. -/
def ingest (selectedFiles : List DriveFile) : List ProcessedFile :=
  selectedFiles.map (fun f => { toDriveFile := f, analysis := none, status := Status.pending })

/-- Merge step of `handleFilesSelected` in `App`: attach the classifier result found by
`analysisResults.find(r => r.fileId === f.id)`; a record with no match is kept unchanged. -/
def mergeResults (analysisResults : List AnalysisResult) (files : List ProcessedFile) :
    List ProcessedFile :=
  files.map (fun f =>
    match analysisResults.find? (fun r => decide (r.fileId = f.id)) with
    | some r => { f with analysis := some r }
    | none => f)

/-- `handleApprove` in `App`:
`setFiles(prev => prev.map(f => f.id === id ? (\x7b ...f, status: 'approved' \x7d) : f))`. -/
def handleApprove (id : String) (files : List ProcessedFile) : List ProcessedFile :=
  files.map (fun f => if f.id = id then { f with status := Status.approved } else f)

/-- `handleReject` in `App`: same shape as `handleApprove` with status `'rejected'`. -/
def handleReject (id : String) (files : List ProcessedFile) : List ProcessedFile :=
  files.map (fun f => if f.id = id then { f with status := Status.rejected } else f)

/-- `handleApproveAll` in `App`:
`prev.map(f => f.status === 'pending' ? (\x7b ...f, status: 'approved' \x7d) : f)`. -/
def handleApproveAll (files : List ProcessedFile) : List ProcessedFile :=
  files.map (fun f => if f.status = Status.pending then { f with status := Status.approved } else f)

/-- `handleUpdateAnalysis` in `App`: when the id matches and an analysis is present, spread the
update into it; otherwise the record is returned unchanged (no error value exists). -/
def handleUpdateAnalysis (id : String) (updates : PartialAnalysis) (files : List ProcessedFile) :
    List ProcessedFile :=
  files.map (fun f =>
    match f.analysis with
    | some a => if f.id = id then { f with analysis := some (mergeAnalysis a updates) } else f
    | none => f)

/-- The source mode selector of `App` (`'upload' | 'drive'`). -/
inductive SourceMode
  | upload
  | drive
deriving DecidableEq, Repr

/-- One `setFiles` call inside the sync loop of `handleSyncToDrive`:
`prev.map(f => f.id === file.id ? (\x7b ...f, status: st \x7d) : f)`. -/
def setStatusById (id : String) (st : Status) (files : List ProcessedFile) : List ProcessedFile :=
  files.map (fun f => if f.id = id then { f with status := st } else f)

/-- The `for` loop of `handleSyncToDrive`, iterating over the `approvedFiles` snapshot with
index `i` while threading the live `files` state and the `current` progress value.
`ok i` abstracts the outcome of the fallible `ensureFolderPath` / `applyFileUpdate` calls for
the record at loop index `i` (the `try` block succeeds exactly when `ok i` is `true`; the
`catch` marks the record `'error'` instead of `'synced'`).
A record with no analysis hits `if (!file.analysis) continue;`, which jumps to the next loop
iteration and therefore also skips the `setSyncProgress` call at the bottom of the body. -/
def syncProcess (ok : Nat → Bool) :
    List ProcessedFile → Nat → List ProcessedFile → Nat → List ProcessedFile × Nat
  | [], _, fs, cur => (fs, cur)
  | file :: rest, i, fs, cur =>
    if file.analysis.isSome then
      syncProcess ok rest (i + 1)
        (setStatusById file.id (if ok i then Status.synced else Status.error) fs) (i + 1)
    else
      syncProcess ok rest (i + 1) fs cur

/-- `handleSyncToDrive` in `App`: early return in upload mode, early return when no record is
`'approved'` (leaving the progress pair as it was), otherwise reset progress to
`(0, approvedFiles.length)` and run the loop. Returns the final review list and the final
`(current, total)` progress pair. -/
def handleSyncToDrive (mode : SourceMode) (ok : Nat → Bool) (files : List ProcessedFile)
    (prevProgress : Nat × Nat) : List ProcessedFile × (Nat × Nat) :=
  if mode = SourceMode.upload then (files, prevProgress)
  else
    let approvedFiles := files.filter (fun f => decide (f.status = Status.approved))
    if approvedFiles.length = 0 then (files, prevProgress)
    else
      let r := syncProcess ok approvedFiles 0 files 0
      (r.1, (r.2, approvedFiles.length))

/-- Proof helper: the per-record effect of all `setStatusById` updates that `syncProcess`
performs while walking the snapshot, expressed as a single function on one record. -/
def applyAll (ok : Nat → Bool) : List ProcessedFile → Nat → ProcessedFile → ProcessedFile
  | [], _, f => f
  | a :: rest, i, f =>
    if a.analysis.isSome then
      applyAll ok rest (i + 1)
        (if f.id = a.id then { f with status := if ok i then Status.synced else Status.error }
         else f)
    else
      applyAll ok rest (i + 1) f

/-- Proof helper: the review list `syncProcess` produces when the snapshot equals the live list,
ids are unique and every record carries an analysis: record `j` becomes `'synced'` or
`'error'` according to `ok j`. -/
def expectedSync (ok : Nat → Bool) : Nat → List ProcessedFile → List ProcessedFile
  | _, [] => []
  | i, f :: rest =>
    { f with status := if ok i then Status.synced else Status.error } :: expectedSync ok (i + 1) rest

/-- A folder of the fake remote store (id, name and the parent it lives under). -/
structure Folder where
  id : String
  name : String
  parentId : String
deriving DecidableEq, Repr

/-- Fake remote store used to run the drive-service helpers: the folders that exist plus a
counter producing fresh folder ids. -/
structure DriveStore where
  folders : List Folder
  nextId : Nat
deriving DecidableEq, Repr

/-- `findFolder` of the drive service: query for a folder with the given name under the given
parent (`pageSize: 1`, so the first match is returned). -/
def findFolder (name : String) (parentId : String) (d : DriveStore) : Option String :=
  (d.folders.find? (fun f => decide (f.name = name) && decide (f.parentId = parentId))).map
    (fun f => f.id)

/-- `createFolder` of the drive service: create a folder with the given name under the given
parent and return its fresh id. -/
def createFolder (name : String) (parentId : String) (d : DriveStore) : String × DriveStore :=
  let fid := "folder-" ++ toString d.nextId
  (fid, { folders := d.folders ++ [{ id := fid, name := name, parentId := parentId }],
          nextId := d.nextId + 1 })

/-- Session state of the folder path resolver: the module-level `folderCache`
(path string → folder id, one binding per key), the fake remote store, and an instrumentation
log recording the accumulated path string current at each `createFolder` call site. -/
structure ResolverState where
  folderCache : List (String × String)
  store : DriveStore
  createCalls : List String
deriving DecidableEq, Repr

/-- Lookup in the `folderCache` object: the first binding for the key, if any. -/
def cacheGet (c : List (String × String)) (k : String) : Option String :=
  (c.find? (fun e => decide (e.1 = k))).map (fun e => e.2)

/-- The accumulation `currentPathStr = currentPathStr ? currentPathStr + "/" + part : part`
in `ensureFolderPath`. -/
def childKey (pref part : String) : String :=
  if pref = "" then part else pref ++ "/" ++ part

/-- The `for (const part of parts)` loop of `ensureFolderPath`: check the cache first, then the
store (`findFolder`), then create (`createFolder`); cache the id under the accumulated path
string and descend. -/
def ensureLoop : List String → String → String → ResolverState → String × ResolverState
  | [], currentParentId, _, s => (currentParentId, s)
  | part :: rest, currentParentId, pref, s =>
    let key := childKey pref part
    match cacheGet s.folderCache key with
    | some fid => ensureLoop rest fid key s
    | none =>
      match findFolder part currentParentId s.store with
      | some fid =>
        ensureLoop rest fid key { s with folderCache := (key, fid) :: s.folderCache }
      | none =>
        let c := createFolder part currentParentId s.store
        ensureLoop rest c.1 key
          { folderCache := (key, c.1) :: s.folderCache
            store := c.2
            createCalls := s.createCalls ++ [key] }

/-- Path normalization of `ensureFolderPath`:
`path.split('/').map(p => p.trim()).filter(p => p !== '')`. -/
def normalizeParts (path : String) : List String :=
  ((path.splitOn "/").map (fun p => p.trim)).filter (fun p => decide (p ≠ ""))

/-- `ensureFolderPath` of the drive service: normalize, return `'root'` for an empty part list,
otherwise walk the parts from `'root'` creating missing folders, and return the id of the
terminal folder together with the updated session state. -/
def ensureFolderPath (path : String) (s : ResolverState) : String × ResolverState :=
  let parts := normalizeParts path
  if parts.isEmpty then ("root", s)
  else ensureLoop parts "root" "" s

/-- A whole session of resolver calls: fold `ensureFolderPath` over a list of requested paths,
keeping only the session state. -/
def runSession (paths : List String) (s : ResolverState) : ResolverState :=
  paths.foldl (fun st p => (ensureFolderPath p st).2) s

/-- Proof helper: the accumulated path strings (cache keys) that `ensureLoop` visits when it
walks `parts` starting from prefix `pref`. -/
def accKeys : String → List String → List String
  | _, [] => []
  | pref, part :: rest => childKey pref part :: accKeys (childKey pref part) rest

/-- Proof helper: the accumulated path string of the final segment (the terminal cache key);
`pref` itself when there is no segment. -/
def lastKey (pref : String) : List String → String
  | [] => pref
  | part :: rest => lastKey (childKey pref part) rest

/-- The request parameters `applyFileUpdate` builds for
`gapi.client.drive.files.update`: the file id, the `name` of the resource body, and the
optional `addParents` / `removeParents` fields. -/
structure UpdateParams where
  fileId : String
  name : String
  addParents : Option String
  removeParents : Option String
deriving DecidableEq, Repr

/-- `applyFileUpdate` of the drive service. The body always carries the new name. The
reparent fields are only set when a target folder id is provided, is truthy (non-empty) and is
not the literal `'root'`, and is not already among the current parents; `removeParents` joins
the current parents with `','` and is only set when that list is present and non-empty. -/
def applyFileUpdate (fileId : String) (newName : String) (currentParents : Option (List String))
    (targetFolderId : Option String) : UpdateParams :=
  let base : UpdateParams :=
    { fileId := fileId, name := newName, addParents := none, removeParents := none }
  match targetFolderId with
  | none => base
  | some t =>
    if t ≠ "" ∧ t ≠ "root" then
      let isAlreadyHere : Bool :=
        match currentParents with
        | some ps => decide (t ∈ ps)
        | none => false
      if isAlreadyHere then base
      else
        { fileId := fileId
          name := newName
          addParents := some t
          removeParents :=
            match currentParents with
            | some ps => if ps.length > 0 then some (String.intercalate "," ps) else none
            | none => none }
    else base

/-- The value of `response.text` for a `generateContent` response (may be absent). -/
structure GenaiResponse where
  text : Option String
deriving DecidableEq, Repr

/-- `analyzeFilesBatch` of the gemini service. `callModel` is the outcome of the remote
`ai.models.generateContent` call; `parseJson` is `JSON.parse` reading the payload as a list of
`AnalysisResult` (a throw is an `Except.error`). An empty input returns `[]` with no call; a
missing key throws before the call; an absent or empty (falsy) `response.text` returns `[]`;
the `catch` block rethrows, so a failed call or a failed parse fails the whole batch. -/
def analyzeFilesBatch (files : List DriveFile) (keyToUse : Option String)
    (callModel : Except String GenaiResponse)
    (parseJson : String → Except String (List AnalysisResult)) :
    Except String (List AnalysisResult) :=
  if files.length = 0 then Except.ok []
  else
    match keyToUse with
    | none => Except.error "No API Key provided. Please connect with a valid Gemini API Key."
    | some _ =>
      match callModel with
      | Except.error e => Except.error e
      | Except.ok response =>
        match response.text with
        | none => Except.ok []
        | some text =>
          if text = "" then Except.ok []
          else
            match parseJson text with
            | Except.error e => Except.error e
            | Except.ok results =>
              Except.ok (results.map (fun r => { r with category := r.category }))

/-- Invariant maintained by the resolver session used in the proofs about `ensureFolderPath`:
no path prefix has ever seen two `createFolder` calls, and every prefix that did see one is
now bound in the `folderCache`. -/
def SessionInv (s : ResolverState) : Prop :=
  s.createCalls.Nodup ∧ ∀ k ∈ s.createCalls, (cacheGet s.folderCache k).isSome

/-- Sample descriptor used by concrete witnesses and counterexamples. -/
def sampleFile1 : DriveFile :=
  { id := "f1", name := "IMG_001.jpg", size := 2048, type := "image/jpeg",
    contentSnippet := none, lastModified := 1700000000000,
    thumbnailLink := none, webViewLink := none, iconLink := none,
    parents := some ["parentA"] }

/-- Second sample descriptor. -/
def sampleFile2 : DriveFile :=
  { id := "f2", name := "taxes_final_v2.pdf", size := 4096, type := "application/pdf",
    contentSnippet := some "tax year 2023", lastModified := 1690000000000,
    thumbnailLink := none, webViewLink := none, iconLink := none,
    parents := some ["parentB"] }

/-- Third sample descriptor. -/
def sampleFile3 : DriveFile :=
  { id := "f3", name := "notes.txt", size := 10, type := "text/plain",
    contentSnippet := none, lastModified := 1680000000000,
    thumbnailLink := none, webViewLink := none, iconLink := none,
    parents := none }

/-- Sample classifier result for a given file id. -/
def sampleAnalysis (fid : String) : AnalysisResult :=
  { fileId := fid, category := FileCategory.work, suggestedPath := "Work/2024",
    suggestedName := "Quarterly Report 2024.pdf", shouldArchive := false,
    sensitivity := SensitivityLevel.normal, reasoning := "Business report.", confidence := 1 }

/-- Sample partial update for `handleUpdateAnalysis`. -/
def samplePartial : PartialAnalysis :=
  { fileId := none, category := none, suggestedPath := some "Personal/Photos",
    suggestedName := some "Beach Trip 2022.jpg", shouldArchive := none,
    sensitivity := none, reasoning := none, confidence := none }

/-- An already-synced record with no analysis attached. -/
def syncedRecord : ProcessedFile :=
  { toDriveFile := sampleFile1, analysis := none, status := Status.synced }

/-- A pending record with no analysis attached. -/
def noAnalysisPending : ProcessedFile :=
  { toDriveFile := sampleFile1, analysis := none, status := Status.pending }

/-- An approved record with no analysis attached. -/
def approvedNoAnalysis : ProcessedFile :=
  { toDriveFile := sampleFile1, analysis := none, status := Status.approved }

/-- An approved record carrying an analysis, built from a descriptor. -/
def approvedWith (f : DriveFile) : ProcessedFile :=
  { toDriveFile := f, analysis := some (sampleAnalysis f.id), status := Status.approved }

/-- A pending record carrying an analysis. -/
def analyzedPending : ProcessedFile :=
  { toDriveFile := sampleFile1, analysis := some (sampleAnalysis "f1"), status := Status.pending }

/-- A concrete batch of three approved, analyzed records with distinct ids. -/
def batch3 : List ProcessedFile :=
  [approvedWith sampleFile1, approvedWith sampleFile2, approvedWith sampleFile3]

/-- A resolver session with an empty cache, an empty store and no create calls yet. -/
def freshSession : ResolverState :=
  { folderCache := [], store := { folders := [], nextId := 0 }, createCalls := [] }

/-- A JSON parse that always fails, used by concrete gateway witnesses. -/
def failingParse : String → Except String (List AnalysisResult) :=
  fun _ => Except.error "SyntaxError: Unexpected token"

@[simp]
theorem setStatus_toDriveFile (f : ProcessedFile) (s : Status) :
    ({ f with status := s }).toDriveFile = f.toDriveFile := rfl

@[simp]
theorem setStatus_id (f : ProcessedFile) (s : Status) : ({ f with status := s }).id = f.id := rfl

@[simp]
theorem setStatus_status (f : ProcessedFile) (s : Status) : ({ f with status := s }).status = s :=
  rfl

@[simp]
theorem setStatus_analysis (f : ProcessedFile) (s : Status) :
    ({ f with status := s }).analysis = f.analysis := rfl

@[simp]
theorem setAnalysis_id (f : ProcessedFile) (a : Option AnalysisResult) :
    ({ f with analysis := a }).id = f.id := rfl

@[simp]
theorem setAnalysis_status (f : ProcessedFile) (a : Option AnalysisResult) :
    ({ f with analysis := a }).status = f.status := rfl

/-- C8: `approveAll` maps exactly the `pending` records to `approved`, leaves every other
record byte-for-byte unchanged at its position, and is idempotent. -/
theorem c8_approveAll_exact_and_idempotent (files : List ProcessedFile) :
    (∀ i : Nat, (handleApproveAll files)[i]? =
      (files[i]?).map (fun f =>
        if f.status = Status.pending then { f with status := Status.approved } else f)) ∧
    handleApproveAll (handleApproveAll files) = handleApproveAll files := by
  constructor
  · intro i
    simp [handleApproveAll, List.getElem?_map]
  · simp only [handleApproveAll, List.map_map]
    apply List.map_congr_left
    intro f _
    by_cases h : f.status = Status.pending
    · simp [Function.comp, h]
    · simp [Function.comp, h]

/-- C2 counterexample: `approve` on a record whose status is `'synced'` silently transitions
it to `'approved'` instead of leaving it unchanged and signalling `InvalidTransition`. -/
theorem c2_counterexample :
    syncedRecord.status = Status.synced ∧
    handleApprove "f1" [syncedRecord] = [{ syncedRecord with status := Status.approved }] := by
  decide

/-- C2 amended: `approve(id)` / `reject(id)` unconditionally set every record whose id matches
to `'approved'` / `'rejected'`, whatever its prior status (including `'synced'` and
`'error'`); no error of any kind is signalled. -/
theorem c2_unconditional_transition (id : String) (files : List ProcessedFile)
    (f : ProcessedFile) (hf : f ∈ files) (hid : f.id = id) :
    { f with status := Status.approved } ∈ handleApprove id files ∧
    { f with status := Status.rejected } ∈ handleReject id files := by
  constructor
  · have h : (fun g : ProcessedFile =>
        if g.id = id then { g with status := Status.approved } else g) f =
        { f with status := Status.approved } := by simp [hid]
    exact h ▸ List.mem_map_of_mem _ hf
  · have h : (fun g : ProcessedFile =>
        if g.id = id then { g with status := Status.rejected } else g) f =
        { f with status := Status.rejected } := by simp [hid]
    exact h ▸ List.mem_map_of_mem _ hf

/-- C2 witness: instantiating the amended claim on a concrete synced record. -/
theorem c2_witness :
    (syncedRecord ∈ [syncedRecord] ∧ syncedRecord.id = "f1") ∧
    ({ syncedRecord with status := Status.approved } ∈ handleApprove "f1" [syncedRecord] ∧
     { syncedRecord with status := Status.rejected } ∈ handleReject "f1" [syncedRecord]) :=
  ⟨⟨by decide, by decide⟩,
    c2_unconditional_transition "f1" [syncedRecord] syncedRecord (by decide) (by decide)⟩

/-- C9 counterexample: `editAnalysis` on a record with no AnalysisResult silently returns the
review list unchanged; no `NoAnalysisPresent` / `MissingAnalysis` failure is signalled (the
handler is total and has no error outcome at all). -/
theorem c9_counterexample :
    noAnalysisPending.analysis = none ∧
    handleUpdateAnalysis "f1" samplePartial [noAnalysisPending] = [noAnalysisPending] := by
  decide

/-- C9 amended: `editAnalysis(id, partialUpdate)` merges the given fields into the existing
AnalysisResult when one is present; when the record has no AnalysisResult the call silently
leaves the record unchanged and signals no error. -/
theorem c9_merge_or_silent_noop (id : String) (u : PartialAnalysis) (files : List ProcessedFile)
    (f : ProcessedFile) (hf : f ∈ files) :
    (∀ a, f.analysis = some a → f.id = id →
      { f with analysis := some (mergeAnalysis a u) } ∈ handleUpdateAnalysis id u files) ∧
    (f.analysis = none → f ∈ handleUpdateAnalysis id u files) := by
  constructor
  · intro a ha hid
    have h : (fun g : ProcessedFile =>
        match g.analysis with
        | some b => if g.id = id then { g with analysis := some (mergeAnalysis b u) } else g
        | none => g) f = { f with analysis := some (mergeAnalysis a u) } := by
      simp [ha, hid]
    exact h ▸ List.mem_map_of_mem _ hf
  · intro ha
    have h : (fun g : ProcessedFile =>
        match g.analysis with
        | some b => if g.id = id then { g with analysis := some (mergeAnalysis b u) } else g
        | none => g) f = f := by
      simp [ha]
    exact h ▸ List.mem_map_of_mem _ hf

/-- C9 witness: instantiating the amended claim on a concrete analyzed record and on a
concrete analysis-less record. -/
theorem c9_witness :
    (analyzedPending ∈ [analyzedPending] ∧ analyzedPending.analysis = some (sampleAnalysis "f1") ∧
      analyzedPending.id = "f1") ∧
    { analyzedPending with analysis := some (mergeAnalysis (sampleAnalysis "f1") samplePartial) } ∈
      handleUpdateAnalysis "f1" samplePartial [analyzedPending] :=
  ⟨⟨by decide, by decide, by decide⟩,
    (c9_merge_or_silent_noop "f1" samplePartial [analyzedPending] analyzedPending
      (by decide)).1 (sampleAnalysis "f1") (by decide) (by decide)⟩

/-- C10: when the resolved target folder is the root identifier `'root'`, `applyFileUpdate`
is rename-only: no `addParents` / `removeParents` fields are built, whatever the current
parents are. -/
theorem c10_root_target_never_moves (fileId newName : String)
    (currentParents : Option (List String)) :
    applyFileUpdate fileId newName currentParents (some "root") =
      { fileId := fileId, name := newName, addParents := none, removeParents := none } := by
  simp [applyFileUpdate]

/-- C6 counterexample: with target folder `'root'` not among the current parents, the claimed
reparent condition holds, yet no reparent fields are built. -/
theorem c6_counterexample :
    ("root" ∉ (["parentA"] : List String)) ∧
    (applyFileUpdate "f1" "Quarterly Report 2024.pdf" (some ["parentA"])
      (some "root")).addParents = none ∧
    (applyFileUpdate "f1" "Quarterly Report 2024.pdf" (some ["parentA"])
      (some "root")).removeParents = none := by
  decide

/-- C6 amended: the request always carries the new name and the file id; a reparent (set
`addParents`, and set `removeParents` to the comma-join of the non-empty current parent list)
is built exactly when a target folder id is provided, is neither the empty string nor the
literal `'root'`, and is not already a member of the current parents; otherwise neither field
is set. -/
theorem c6_reparent_rules (fileId newName : String) (currentParents : Option (List String))
    (targetFolderId : Option String) :
    (applyFileUpdate fileId newName currentParents targetFolderId).name = newName ∧
    (applyFileUpdate fileId newName currentParents targetFolderId).fileId = fileId ∧
    (∀ t, targetFolderId = some t → t ≠ "" → t ≠ "root" →
      (∀ ps, currentParents = some ps → t ∉ ps →
        (applyFileUpdate fileId newName currentParents targetFolderId).addParents = some t ∧
        (applyFileUpdate fileId newName currentParents targetFolderId).removeParents =
          (if ps.length > 0 then some (String.intercalate "," ps) else none)) ∧
      (currentParents = none →
        (applyFileUpdate fileId newName currentParents targetFolderId).addParents = some t ∧
        (applyFileUpdate fileId newName currentParents targetFolderId).removeParents = none)) ∧
    ((targetFolderId = none ∨ targetFolderId = some "" ∨ targetFolderId = some "root" ∨
      (∃ t ps, targetFolderId = some t ∧ currentParents = some ps ∧ t ∈ ps)) →
      (applyFileUpdate fileId newName currentParents targetFolderId).addParents = none ∧
      (applyFileUpdate fileId newName currentParents targetFolderId).removeParents = none) := by
  refine ⟨?_, ?_, ?_, ?_⟩
  · cases targetFolderId with
    | none => rfl
    | some t =>
      simp only [applyFileUpdate]
      split
      · cases currentParents with
        | none => simp
        | some ps =>
          by_cases hmem : t ∈ ps
          · simp [hmem]
          · simp [hmem]
      · rfl
  · cases targetFolderId with
    | none => rfl
    | some t =>
      simp only [applyFileUpdate]
      split
      · cases currentParents with
        | none => simp
        | some ps =>
          by_cases hmem : t ∈ ps
          · simp [hmem]
          · simp [hmem]
      · rfl
  · rintro t rfl ht1 ht2
    constructor
    · rintro ps rfl hmem
      simp [applyFileUpdate, ht1, ht2, hmem]
    · rintro rfl
      simp [applyFileUpdate, ht1, ht2]
  · rintro (rfl | rfl | rfl | ⟨t, ps, rfl, rfl, hmem⟩)
    · exact ⟨rfl, rfl⟩
    · simp [applyFileUpdate]
    · simp [applyFileUpdate]
    · simp [applyFileUpdate, hmem]

/-- C6 witness: instantiating the amended claim on a concrete reparenting update and a
concrete no-op move. -/
theorem c6_witness :
    ((some "T" = some "T" ∧ "T" ≠ "" ∧ "T" ≠ "root" ∧ "T" ∉ (["p1", "p2"] : List String)) ∧
      (applyFileUpdate "f1" "New.pdf" (some ["p1", "p2"]) (some "T")).addParents = some "T" ∧
      (applyFileUpdate "f1" "New.pdf" (some ["p1", "p2"]) (some "T")).removeParents =
        (if (["p1", "p2"] : List String).length > 0
          then some (String.intercalate "," ["p1", "p2"]) else none)) ∧
    ((applyFileUpdate "f1" "New.pdf" (some ["p1", "T"]) (some "T")).addParents = none ∧
      (applyFileUpdate "f1" "New.pdf" (some ["p1", "T"]) (some "T")).removeParents = none) :=
  ⟨⟨⟨rfl, by decide, by decide, by decide⟩,
    ((c6_reparent_rules "f1" "New.pdf" (some ["p1", "p2"]) (some "T")).2.2.1 "T" rfl
      (by decide) (by decide)).1 ["p1", "p2"] rfl (by decide)⟩,
    (c6_reparent_rules "f1" "New.pdf" (some ["p1", "T"]) (some "T")).2.2.2
      (Or.inr (Or.inr (Or.inr ⟨"T", ["p1", "T"], rfl, rfl, by decide⟩)))⟩

/-- C1 counterexample: starting from a freshly ingested descriptor with no classifier result,
a single `approve(id)` call yields a reachable state whose only record is `'approved'` with no
AnalysisResult — refuting the invariant as claimed. -/
theorem c1_counterexample :
    (handleApprove "f1" (mergeResults [] (ingest [sampleFile1]))).map
        (fun f => (f.status, f.analysis)) =
      [(Status.approved, (none : Option AnalysisResult))] := by
  decide

/-- C5 counterexample: a batch whose single approved record has no AnalysisResult is skipped
by `continue` before the progress update, so at loop completion the progress pair is
`(0, 1)` — `current` does not reach `total`. -/
theorem c5_counterexample :
    (handleSyncToDrive SourceMode.drive (fun _ => true) [approvedNoAnalysis] (0, 0)).2 = (0, 1) ∧
    (0 : Nat) ≠ 1 := by
  decide

/-- C7: for a non-empty batch, the classification gateway fails as a unit: a failed remote
call propagates as the batch's failure, a payload that fails to parse propagates as the
batch's failure, and any successful outcome is either the degenerate empty list (absent
payload text) or exactly the full parsed result list — never a partial per-file subset. -/
theorem c7_batch_fails_as_unit (files : List DriveFile) (key : String)
    (parseJson : String → Except String (List AnalysisResult)) (hne : files ≠ []) :
    (∀ e, analyzeFilesBatch files (some key) (Except.error e) parseJson = Except.error e) ∧
    (∀ t e, t ≠ "" → parseJson t = Except.error e →
      analyzeFilesBatch files (some key) (Except.ok { text := some t }) parseJson =
        Except.error e) ∧
    (∀ call rs, analyzeFilesBatch files (some key) call parseJson = Except.ok rs →
      rs = [] ∨ ∃ t, call = Except.ok { text := some t } ∧ parseJson t = Except.ok rs) := by
  have hlen : ¬ files.length = 0 := by
    simpa [List.length_eq_zero] using hne
  refine ⟨?_, ?_, ?_⟩
  · intro e
    simp [analyzeFilesBatch, hlen]
  · intro t e ht hp
    simp [analyzeFilesBatch, hlen, ht, hp]
  · intro call rs h
    cases call with
    | error e =>
      simp [analyzeFilesBatch, hlen] at h
    | ok response =>
      obtain ⟨text⟩ := response
      cases text with
      | none =>
        left
        simp [analyzeFilesBatch, hlen] at h
        exact h
      | some t =>
        by_cases ht : t = ""
        · subst ht
          left
          simp [analyzeFilesBatch, hlen] at h
          exact h
        · cases hp : parseJson t with
          | error e =>
            simp [analyzeFilesBatch, hlen, ht, hp] at h
          | ok results =>
            right
            refine ⟨t, rfl, ?_⟩
            rw [hp]
            have hmap : results.map (fun r : AnalysisResult =>
                { r with category := r.category }) = results := by
              have hfun : (fun r : AnalysisResult => { r with category := r.category }) =
                  (fun r : AnalysisResult => r) := by
                funext r
                rfl
              rw [hfun, List.map_id']
            simp [analyzeFilesBatch, hlen, ht, hp, hmap] at h
            rw [h]

/-- C7 witness: instantiating the batch-fatal behavior on a concrete one-file batch with a
failing remote call and with a payload that fails to parse. -/
theorem c7_witness :
    ([sampleFile1] ≠ ([] : List DriveFile)) ∧
    analyzeFilesBatch [sampleFile1] (some "AIzaSampleKey") (Except.error "network down")
        failingParse = Except.error "network down" ∧
    analyzeFilesBatch [sampleFile1] (some "AIzaSampleKey") (Except.ok { text := some "not json" })
        failingParse = Except.error "SyntaxError: Unexpected token" :=
  ⟨by decide,
    (c7_batch_fails_as_unit [sampleFile1] "AIzaSampleKey" failingParse (by decide)).1
      "network down",
    (c7_batch_fails_as_unit [sampleFile1] "AIzaSampleKey" failingParse (by decide)).2.1
      "not json" "SyntaxError: Unexpected token" (by decide) rfl⟩

theorem syncProcess_fst (ok : Nat → Bool) :
    ∀ (snapshot : List ProcessedFile) (i : Nat) (fs : List ProcessedFile) (cur : Nat),
      (syncProcess ok snapshot i fs cur).1 = fs.map (fun f => applyAll ok snapshot i f) := by
  intro snapshot
  induction snapshot with
  | nil =>
    intro i fs cur
    simp [syncProcess, applyAll, List.map_id']
  | cons a rest ih =>
    intro i fs cur
    by_cases ha : a.analysis.isSome
    · simp only [syncProcess, ha, if_true]
      rw [ih, setStatusById, List.map_map]
      apply List.map_congr_left
      intro f _
      simp [Function.comp, applyAll, ha]
    · simp only [syncProcess, ha, Bool.false_eq_true, if_false]
      rw [ih]
      apply List.map_congr_left
      intro f _
      simp [applyAll, ha]

theorem syncProcess_snd (ok : Nat → Bool) :
    ∀ (snapshot : List ProcessedFile), (∀ a ∈ snapshot, a.analysis.isSome) →
      ∀ (i : Nat) (fs : List ProcessedFile) (cur : Nat),
        (syncProcess ok snapshot i fs cur).2 =
          if snapshot.isEmpty then cur else i + snapshot.length := by
  intro snapshot
  induction snapshot with
  | nil =>
    intro _ i fs cur
    simp [syncProcess]
  | cons a rest ih =>
    intro hana i fs cur
    have ha : a.analysis.isSome := hana a (List.mem_cons_self a rest)
    have hrest : ∀ b ∈ rest, b.analysis.isSome := fun b hb => hana b (List.mem_cons_of_mem a hb)
    simp only [syncProcess, ha, if_true]
    rw [ih hrest (i + 1) _ (i + 1)]
    cases rest with
    | nil => simp
    | cons b rs =>
      simp [List.length_cons]
      omega

theorem applyAll_eq_self (ok : Nat → Bool) :
    ∀ (snapshot : List ProcessedFile) (i : Nat) (f : ProcessedFile),
      (∀ a ∈ snapshot, f.id = a.id → a.analysis = none) → applyAll ok snapshot i f = f := by
  intro snapshot
  induction snapshot with
  | nil =>
    intro i f _
    rfl
  | cons a rest ih =>
    intro i f h
    by_cases ha : a.analysis.isSome
    · have hne : ¬ f.id = a.id := by
        intro he
        have hnone := h a (List.mem_cons_self a rest) he
        rw [hnone] at ha
        simp at ha
      simp only [applyAll, ha, if_true, if_neg hne]
      exact ih (i + 1) f (fun b hb => h b (List.mem_cons_of_mem a hb))
    · simp only [applyAll, ha, if_false]
      exact ih (i + 1) f (fun b hb => h b (List.mem_cons_of_mem a hb))

theorem map_applyAll_expected (ok : Nat → Bool) :
    ∀ (files : List ProcessedFile) (i : Nat),
      (files.map (fun g => g.id)).Nodup → (∀ a ∈ files, a.analysis.isSome) →
      files.map (fun f => applyAll ok files i f) = expectedSync ok i files := by
  intro files
  induction files with
  | nil =>
    intro i _ _
    rfl
  | cons f rest ih =>
    intro i hnd hana
    have hf : f.analysis.isSome := hana f (List.mem_cons_self f rest)
    have hrest : ∀ a ∈ rest, a.analysis.isSome := fun a ha => hana a (List.mem_cons_of_mem f ha)
    rw [List.map_cons] at hnd
    have hndrest : (rest.map (fun g => g.id)).Nodup := hnd.of_cons
    have hfid : f.id ∉ rest.map (fun g => g.id) := (List.nodup_cons.mp hnd).1
    simp only [List.map_cons, expectedSync]
    congr 1
    · have h1 : applyAll ok (f :: rest) i f =
          applyAll ok rest (i + 1)
            { f with status := if ok i then Status.synced else Status.error } := by
        simp [applyAll, hf]
      rw [h1]
      apply applyAll_eq_self
      intro a ha hid
      exfalso
      apply hfid
      have hid2 : f.id = a.id := hid
      rw [hid2]
      exact List.mem_map_of_mem (fun g => g.id) ha
    · have h2 : rest.map (fun g => applyAll ok (f :: rest) i g) =
          rest.map (fun g => applyAll ok rest (i + 1) g) := by
        apply List.map_congr_left
        intro g hg
        have hgne : ¬ g.id = f.id := by
          intro he
          apply hfid
          rw [← he]
          exact List.mem_map_of_mem (fun x => x.id) hg
        simp [applyAll, hf, hgne]
      rw [h2]
      exact ih (i + 1) hndrest hrest

theorem expectedSync_count_error (ok : Nat → Bool) (k : Nat) :
    ∀ (l : List ProcessedFile) (i : Nat),
      (∀ j, i ≤ j → j < i + l.length → (ok j = false ↔ j = k)) →
      (expectedSync ok i l).countP (fun f => decide (f.status = Status.error)) =
        if i ≤ k ∧ k < i + l.length then 1 else 0 := by
  intro l
  induction l with
  | nil =>
    intro i _
    simp only [expectedSync, List.countP_nil, List.length_nil]
    rw [if_neg (by omega)]
  | cons f rest ih =>
    intro i hok
    have hbound : i < i + (f :: rest).length := by
      rw [List.length_cons]
      omega
    have hrest := ih (i + 1) (fun j hj1 hj2 => hok j (by omega)
      (by rw [List.length_cons]; omega))
    by_cases hoi : ok i = true
    · have hik : ¬ i = k := by
        intro he
        have hfalse := (hok i (le_refl i) hbound).mpr he
        rw [hfalse] at hoi
        exact Bool.false_ne_true hoi
      simp [expectedSync, List.countP_cons, hoi, List.length_cons]
      split_ifs at hrest ⊢ <;> omega
    · have hoi2 : ok i = false := by
        simpa using hoi
      have hik : i = k := (hok i (le_refl i) hbound).mp hoi2
      simp [expectedSync, List.countP_cons, hoi2, List.length_cons]
      split_ifs at hrest ⊢ <;> omega

theorem expectedSync_count_total (ok : Nat → Bool) :
    ∀ (l : List ProcessedFile) (i : Nat),
      (expectedSync ok i l).countP (fun f => decide (f.status = Status.synced)) +
        (expectedSync ok i l).countP (fun f => decide (f.status = Status.error)) = l.length := by
  intro l
  induction l with
  | nil =>
    intro i
    rfl
  | cons f rest ih =>
    intro i
    have h := ih (i + 1)
    by_cases hoi : ok i = true
    · simp [expectedSync, List.countP_cons, hoi, List.length_cons]
      omega
    · have hoi2 : ok i = false := by simpa using hoi
      simp [expectedSync, List.countP_cons, hoi2, List.length_cons]
      omega

theorem handleSyncToDrive_all_approved (ok : Nat → Bool) (files : List ProcessedFile)
    (prevProgress : Nat × Nat) (happ : ∀ f ∈ files, f.status = Status.approved)
    (hne : files ≠ []) :
    handleSyncToDrive SourceMode.drive ok files prevProgress =
      ((syncProcess ok files 0 files 0).1, ((syncProcess ok files 0 files 0).2, files.length)) := by
  have hfilter : files.filter (fun f => decide (f.status = Status.approved)) = files :=
    List.filter_eq_self.mpr (fun f hf => by simp [happ f hf])
  have hlen : ¬ files.length = 0 := by
    cases files with
    | nil => exact absurd rfl hne
    | cons a l => simp
  simp [handleSyncToDrive, hfilter, hlen]

/-- C1 amended part (the invariant that survives): whatever approve / approveAll calls made a
record reach `'approved'`, the Sync Executor never changes a record that has no
AnalysisResult — it is skipped and the identical record is still present afterwards (so an
analysis-less record can become `'approved'`, per the counterexample, but can never become
`'synced'` or `'error'`). Requires ids to be unique in the review list. -/
theorem c1_sync_skips_missing_analysis (mode : SourceMode) (ok : Nat → Bool)
    (files : List ProcessedFile) (prevProgress : Nat × Nat)
    (hids : (files.map (fun f => f.id)).Nodup)
    (f : ProcessedFile) (hf : f ∈ files) (hna : f.analysis = none) :
    f ∈ (handleSyncToDrive mode ok files prevProgress).1 := by
  cases mode with
  | upload =>
    simpa [handleSyncToDrive] using hf
  | drive =>
    have hmode : ¬ (SourceMode.drive = SourceMode.upload) := by decide
    by_cases hlen : (files.filter (fun g => decide (g.status = Status.approved))).length = 0
    · simpa [handleSyncToDrive, hmode, hlen] using hf
    · have hid : applyAll ok (files.filter (fun g => decide (g.status = Status.approved))) 0 f =
          f := by
        apply applyAll_eq_self
        intro a ha hidq
        have haf : a ∈ files := (List.mem_filter.mp ha).1
        have heq : f = a := List.inj_on_of_nodup_map hids hf haf hidq
        rw [← heq]
        exact hna
      simp only [handleSyncToDrive, if_neg hmode, if_neg hlen]
      rw [syncProcess_fst]
      exact List.mem_map.mpr ⟨f, hf, hid⟩

/-- C1 witness: instantiating the amended sync-skip invariant on a concrete two-record batch
whose first approved record has no analysis. -/
theorem c1_witness :
    ((([approvedNoAnalysis, approvedWith sampleFile2].map (fun f => f.id)).Nodup ∧
      approvedNoAnalysis ∈ [approvedNoAnalysis, approvedWith sampleFile2] ∧
      approvedNoAnalysis.analysis = none)) ∧
    approvedNoAnalysis ∈
      (handleSyncToDrive SourceMode.drive (fun _ => true)
        [approvedNoAnalysis, approvedWith sampleFile2] (0, 0)).1 :=
  ⟨⟨by decide, by decide, by decide⟩,
    c1_sync_skips_missing_analysis SourceMode.drive (fun _ => true)
      [approvedNoAnalysis, approvedWith sampleFile2] (0, 0) (by decide)
      approvedNoAnalysis (by decide) (by decide)⟩

/-- C3: for a batch of approved, analyzed records with unique ids in which exactly the record
at loop index `k` fails its resolution/mutation step, the executor finishes the whole batch:
`N - 1` records end `'synced'`, exactly one ends `'error'`, and the progress pair reaches
`(N, N)` — no record after the failing one is left unprocessed. -/
theorem c3_single_failure_completes (files : List ProcessedFile) (ok : Nat → Bool) (k : Nat)
    (hids : (files.map (fun f => f.id)).Nodup)
    (happ : ∀ f ∈ files, f.status = Status.approved)
    (hana : ∀ f ∈ files, f.analysis.isSome)
    (hk : k < files.length)
    (hok : ∀ j, j < files.length → (ok j = false ↔ j = k)) :
    ((handleSyncToDrive SourceMode.drive ok files (0, 0)).1.countP
        (fun f => decide (f.status = Status.synced)) = files.length - 1) ∧
    ((handleSyncToDrive SourceMode.drive ok files (0, 0)).1.countP
        (fun f => decide (f.status = Status.error)) = 1) ∧
    (handleSyncToDrive SourceMode.drive ok files (0, 0)).2 = (files.length, files.length) := by
  have hne : files ≠ [] := by
    intro he
    rw [he] at hk
    simp at hk
  have hrun := handleSyncToDrive_all_approved ok files (0, 0) happ hne
  have hfst : (handleSyncToDrive SourceMode.drive ok files (0, 0)).1 =
      expectedSync ok 0 files := by
    rw [hrun]
    rw [syncProcess_fst]
    exact map_applyAll_expected ok files 0 hids hana
  have herr : (expectedSync ok 0 files).countP (fun f => decide (f.status = Status.error)) = 1 := by
    rw [expectedSync_count_error ok k files 0 (fun j _ hj2 => hok j (by omega))]
    rw [if_pos ⟨Nat.zero_le k, by omega⟩]
  have htot := expectedSync_count_total ok files 0
  have hemp : files.isEmpty = false := by
    cases files with
    | nil => exact absurd rfl hne
    | cons a l => rfl
  refine ⟨?_, ?_, ?_⟩
  · rw [hfst]
    omega
  · rw [hfst]
    exact herr
  · rw [hrun]
    rw [syncProcess_snd ok files hana 0 files 0, hemp]
    simp

/-- C3 witness: a concrete three-record batch in which exactly the record at index 1 fails. -/
theorem c3_witness :
    ((batch3.map (fun f => f.id)).Nodup ∧ (∀ f ∈ batch3, f.status = Status.approved) ∧
      (∀ f ∈ batch3, f.analysis.isSome) ∧ 1 < batch3.length ∧
      (∀ j, j < batch3.length → (decide (j ≠ 1) = false ↔ j = 1))) ∧
    ((handleSyncToDrive SourceMode.drive (fun j => decide (j ≠ 1)) batch3 (0, 0)).1.countP
        (fun f => decide (f.status = Status.synced)) = batch3.length - 1 ∧
      (handleSyncToDrive SourceMode.drive (fun j => decide (j ≠ 1)) batch3 (0, 0)).1.countP
        (fun f => decide (f.status = Status.error)) = 1 ∧
      (handleSyncToDrive SourceMode.drive (fun j => decide (j ≠ 1)) batch3 (0, 0)).2 =
        (batch3.length, batch3.length)) :=
  ⟨⟨by decide, by decide, by decide, by decide, by decide⟩,
    c3_single_failure_completes batch3 (fun j => decide (j ≠ 1)) 1 (by decide) (by decide)
      (by decide) (by decide) (by decide)⟩

/-- C5 amended: the progress counter is only advanced for records that are actually processed;
a record skipped for missing AnalysisResult does not advance it (the `continue` bypasses the
update), so `current == total` holds at loop completion for every batch in which every
approved record carries an AnalysisResult. -/
theorem c5_progress_complete_when_all_analyzed (mode : SourceMode) (ok : Nat → Bool)
    (files : List ProcessedFile)
    (h : ∀ f ∈ files, f.status = Status.approved → f.analysis.isSome) :
    (handleSyncToDrive mode ok files (0, 0)).2.1 =
      (handleSyncToDrive mode ok files (0, 0)).2.2 := by
  cases mode with
  | upload => rfl
  | drive =>
    have hmode : ¬ (SourceMode.drive = SourceMode.upload) := by decide
    by_cases hlen : (files.filter (fun g => decide (g.status = Status.approved))).length = 0
    · simp [handleSyncToDrive, hmode, hlen]
    · have hana : ∀ a ∈ files.filter (fun g => decide (g.status = Status.approved)),
          a.analysis.isSome := by
        intro a ha
        have hm := List.mem_filter.mp ha
        exact h a hm.1 (by simpa using hm.2)
      have hemp : (files.filter (fun g => decide (g.status = Status.approved))).isEmpty =
          false := by
        cases hfe : files.filter (fun g => decide (g.status = Status.approved)) with
        | nil =>
          rw [hfe] at hlen
          simp at hlen
        | cons a l => rfl
      simp only [handleSyncToDrive, if_neg hmode, if_neg hlen]
      rw [syncProcess_snd ok _ hana 0 files 0, hemp]
      simp

/-- C5 witness: a concrete batch whose approved records all carry an analysis; the progress
pair is complete at the end even though every mutation fails. -/
theorem c5_witness :
    (∀ f ∈ [approvedWith sampleFile1, approvedWith sampleFile2],
      f.status = Status.approved → f.analysis.isSome) ∧
    (handleSyncToDrive SourceMode.drive (fun _ => false)
        [approvedWith sampleFile1, approvedWith sampleFile2] (0, 0)).2.1 =
      (handleSyncToDrive SourceMode.drive (fun _ => false)
        [approvedWith sampleFile1, approvedWith sampleFile2] (0, 0)).2.2 :=
  ⟨by decide,
    c5_progress_complete_when_all_analyzed SourceMode.drive (fun _ => false)
      [approvedWith sampleFile1, approvedWith sampleFile2] (by decide)⟩

theorem cacheGet_cons_self (c : List (String × String)) (key fid : String) :
    cacheGet ((key, fid) :: c) key = some fid := by
  simp [cacheGet, List.find?_cons]

theorem cacheGet_cons_of_ne (c : List (String × String)) (key fid k : String) (h : k ≠ key) :
    cacheGet ((key, fid) :: c) k = cacheGet c k := by
  simp [cacheGet, List.find?_cons, Ne.symm h]

theorem ensureLoop_cache_mono (parts : List String) :
    ∀ (parentId pref : String) (s : ResolverState) (k v : String),
      cacheGet s.folderCache k = some v →
      cacheGet (ensureLoop parts parentId pref s).2.folderCache k = some v := by
  induction parts with
  | nil =>
    intro _ _ s k v h
    simpa [ensureLoop] using h
  | cons part rest ih =>
    intro parentId pref s k v h
    cases hc : cacheGet s.folderCache (childKey pref part) with
    | some fid =>
      simp only [ensureLoop, hc]
      exact ih fid (childKey pref part) s k v h
    | none =>
      have hkne : k ≠ childKey pref part := by
        intro he
        rw [he, hc] at h
        exact Option.noConfusion h
      cases hf : findFolder part parentId s.store with
      | some fid =>
        simp only [ensureLoop, hc, hf]
        apply ih
        rw [cacheGet_cons_of_ne _ _ _ _ hkne]
        exact h
      | none =>
        simp only [ensureLoop, hc, hf]
        apply ih
        rw [cacheGet_cons_of_ne _ _ _ _ hkne]
        exact h

theorem ensureLoop_caches (parts : List String) :
    ∀ (parentId pref : String) (s : ResolverState),
      (∀ k ∈ accKeys pref parts,
        (cacheGet (ensureLoop parts parentId pref s).2.folderCache k).isSome) ∧
      (parts ≠ [] →
        cacheGet (ensureLoop parts parentId pref s).2.folderCache (lastKey pref parts) =
          some (ensureLoop parts parentId pref s).1) := by
  induction parts with
  | nil =>
    intro parentId pref s
    exact ⟨by simp [accKeys], fun h => absurd rfl h⟩
  | cons part rest ih =>
    intro parentId pref s
    cases hc : cacheGet s.folderCache (childKey pref part) with
    | some fid =>
      constructor
      · intro k hk
        simp only [ensureLoop, hc]
        rcases (by simpa [accKeys] using hk :
            k = childKey pref part ∨ k ∈ accKeys (childKey pref part) rest) with rfl | hk2
        · have := ensureLoop_cache_mono rest fid (childKey pref part) s _ _ hc
          rw [this]
          rfl
        · exact (ih fid (childKey pref part) s).1 k hk2
      · intro _
        simp only [ensureLoop, hc]
        cases rest with
        | nil =>
          simpa [ensureLoop, lastKey] using hc
        | cons q qs =>
          exact (ih fid (childKey pref part) s).2 (by simp)
    | none =>
      cases hf : findFolder part parentId s.store with
      | some fid =>
        constructor
        · intro k hk
          simp only [ensureLoop, hc, hf]
          rcases (by simpa [accKeys] using hk :
              k = childKey pref part ∨ k ∈ accKeys (childKey pref part) rest) with rfl | hk2
          · have hself := cacheGet_cons_self s.folderCache (childKey pref part) fid
            have := ensureLoop_cache_mono rest fid (childKey pref part)
              { s with folderCache := (childKey pref part, fid) :: s.folderCache } _ _ hself
            rw [this]
            rfl
          · exact (ih fid (childKey pref part) _).1 k hk2
        · intro _
          simp only [ensureLoop, hc, hf]
          cases rest with
          | nil =>
            simpa [ensureLoop, lastKey] using
              cacheGet_cons_self s.folderCache (childKey pref part) fid
          | cons q qs =>
            exact (ih fid (childKey pref part) _).2 (by simp)
      | none =>
        constructor
        · intro k hk
          simp only [ensureLoop, hc, hf]
          rcases (by simpa [accKeys] using hk :
              k = childKey pref part ∨ k ∈ accKeys (childKey pref part) rest) with rfl | hk2
          · have hself := cacheGet_cons_self s.folderCache (childKey pref part)
              (createFolder part parentId s.store).1
            have := ensureLoop_cache_mono rest (createFolder part parentId s.store).1
              (childKey pref part)
              { folderCache :=
                  (childKey pref part, (createFolder part parentId s.store).1) :: s.folderCache
                store := (createFolder part parentId s.store).2
                createCalls := s.createCalls ++ [childKey pref part] } _ _ hself
            rw [this]
            rfl
          · exact (ih (createFolder part parentId s.store).1 (childKey pref part) _).1 k hk2
        · intro _
          simp only [ensureLoop, hc, hf]
          cases rest with
          | nil =>
            simpa [ensureLoop, lastKey] using
              cacheGet_cons_self s.folderCache (childKey pref part)
                (createFolder part parentId s.store).1
          | cons q qs =>
            exact (ih (createFolder part parentId s.store).1 (childKey pref part) _).2 (by simp)

theorem ensureLoop_all_cached (parts : List String) :
    ∀ (parentId pref : String) (s : ResolverState) (rid : String),
      (∀ k ∈ accKeys pref parts, (cacheGet s.folderCache k).isSome) →
      parts ≠ [] → cacheGet s.folderCache (lastKey pref parts) = some rid →
      (ensureLoop parts parentId pref s).1 = rid := by
  induction parts with
  | nil =>
    intro _ _ _ _ _ hne _
    exact absurd rfl hne
  | cons part rest ih =>
    intro parentId pref s rid hall hne hlast
    have hhead : (cacheGet s.folderCache (childKey pref part)).isSome :=
      hall _ (by simp [accKeys])
    obtain ⟨fid, hfid⟩ := Option.isSome_iff_exists.mp hhead
    simp only [ensureLoop, hfid]
    cases rest with
    | nil =>
      have h2 : some fid = some rid := by
        rw [← hfid]
        exact hlast
      exact Option.some_inj.mp h2
    | cons q qs =>
      apply ih fid (childKey pref part) s rid
      · intro k hk
        exact hall k (List.mem_cons_of_mem _ hk)
      · simp
      · exact hlast

theorem ensureLoop_inv (parts : List String) :
    ∀ (parentId pref : String) (s : ResolverState),
      SessionInv s → SessionInv (ensureLoop parts parentId pref s).2 := by
  induction parts with
  | nil =>
    intro _ _ s h
    simpa [ensureLoop] using h
  | cons part rest ih =>
    intro parentId pref s hinv
    cases hc : cacheGet s.folderCache (childKey pref part) with
    | some fid =>
      simp only [ensureLoop, hc]
      exact ih fid _ s hinv
    | none =>
      cases hf : findFolder part parentId s.store with
      | some fid =>
        simp only [ensureLoop, hc, hf]
        apply ih
        refine ⟨hinv.1, ?_⟩
        intro k hk
        have hkne : k ≠ childKey pref part := by
          intro he
          have hs := hinv.2 k hk
          rw [he, hc] at hs
          simp at hs
        rw [cacheGet_cons_of_ne _ _ _ _ hkne]
        exact hinv.2 k hk
      | none =>
        simp only [ensureLoop, hc, hf]
        apply ih
        constructor
        · have hknotin : childKey pref part ∉ s.createCalls := by
            intro hmem
            have hs := hinv.2 _ hmem
            rw [hc] at hs
            simp at hs
          refine List.nodup_append.mpr ⟨hinv.1, List.nodup_singleton _, ?_⟩
          intro x hx hx2
          rw [List.mem_singleton] at hx2
          subst hx2
          exact hknotin hx
        · intro k hk
          rcases List.mem_append.mp hk with hk1 | hk2
          · have hkne : k ≠ childKey pref part := by
              intro he
              have hs := hinv.2 k hk1
              rw [he, hc] at hs
              simp at hs
            rw [cacheGet_cons_of_ne _ _ _ _ hkne]
            exact hinv.2 k hk1
          · rw [List.mem_singleton] at hk2
            subst hk2
            rw [cacheGet_cons_self]
            rfl

theorem ensureFolderPath_inv (path : String) (s : ResolverState) (h : SessionInv s) :
    SessionInv (ensureFolderPath path s).2 := by
  cases he : (normalizeParts path).isEmpty
  · simp only [ensureFolderPath, he, Bool.false_eq_true, if_false]
    exact ensureLoop_inv _ _ _ _ h
  · simp only [ensureFolderPath, he, if_true]
    exact h

theorem runSession_inv (paths : List String) :
    ∀ s : ResolverState, SessionInv s → SessionInv (runSession paths s) := by
  induction paths with
  | nil =>
    intro s h
    exact h
  | cons p rest ih =>
    intro s h
    exact ih _ (ensureFolderPath_inv p s h)

theorem ensureFolderPath_idem (path : String) (s : ResolverState) :
    (ensureFolderPath path ((ensureFolderPath path s).2)).1 =
      (ensureFolderPath path s).1 := by
  cases he : (normalizeParts path).isEmpty
  · have hne : normalizeParts path ≠ [] := by
      intro h0
      rw [h0] at he
      simp at he
    have hcache := ensureLoop_caches (normalizeParts path) "root" "" s
    simp only [ensureFolderPath, he, Bool.false_eq_true, if_false]
    exact ensureLoop_all_cached (normalizeParts path) "root" "" _ _ hcache.1 hne (hcache.2 hne)
  · simp only [ensureFolderPath, he, if_true]

/-- C4: calling `resolve` twice for the same path against the same session returns the same
folder identifier both times; and across a whole session of `resolve` calls started with no
create-folder call yet, the log of accumulated path prefixes at which `createFolder` was
invoked has no duplicates — at most one create-folder call per distinct never-before-seen
prefix, however many overlapping paths are resolved. -/
theorem c4_resolver_idempotent_and_unique_creates (path : String) (s : ResolverState)
    (paths : List String) (s0 : ResolverState)
    (_hpath : path ≠ "") (hs0 : s0.createCalls = []) :
    (ensureFolderPath path ((ensureFolderPath path s).2)).1 =
      (ensureFolderPath path s).1 ∧
    (runSession paths s0).createCalls.Nodup := by
  refine ⟨ensureFolderPath_idem path s, ?_⟩
  have hinv0 : SessionInv s0 := by
    constructor
    · rw [hs0]
      exact List.nodup_nil
    · intro k hk
      rw [hs0] at hk
      simp at hk
  exact (runSession_inv paths s0 hinv0).1

/-- C4 witness: a concrete session resolving two overlapping paths from a fresh cache. -/
theorem c4_witness :
    ("Work/2024" ≠ "" ∧ freshSession.createCalls = []) ∧
    ((ensureFolderPath "Work/2024" ((ensureFolderPath "Work/2024" freshSession).2)).1 =
        (ensureFolderPath "Work/2024" freshSession).1 ∧
      (runSession ["Work/2024", "Work/2024/Reports"] freshSession).createCalls.Nodup) :=
  ⟨⟨by decide, rfl⟩,
    c4_resolver_idempotent_and_unique_creates "Work/2024" freshSession
      ["Work/2024", "Work/2024/Reports"] freshSession (by decide) rfl⟩

end Drive3
